import Mathlib

/-!
# Career Compass — matching and scoring engine, shallow embedding

Shallow embedding of the scoring/matching logic of `app.py`
(the "AI Career Compass" Streamlit app).  Strings are modelled as
`List Char`; Python string operations (`split`, `strip`, `replace`,
`lower`, `in`) are given executable Lean counterparts; the pandas
dataframe is a list of rows plus an optional `Final_Score` column;
machine floats carrying percentages are modelled exactly as `ℚ`
(every arithmetic operation used by the code is a sum, product or a
single division, identical in both semantics for the comparisons made).
-/

namespace CareerCompass

/-- Python `s.strip()`: drop whitespace characters from both ends
(`app.py` uses it on every token). -/
def pyStrip (s : List Char) : List Char :=
  ((s.dropWhile Char.isWhitespace).reverse.dropWhile Char.isWhitespace).reverse

/-- Python `s.split(',')`: split on every comma; `"".split(',') == ['']`,
so the result is never empty. -/
def splitComma : List Char → List (List Char)
  | [] => [[]]
  | c :: cs =>
    if c = ',' then [] :: splitComma cs
    else
      match splitComma cs with
      | [] => [[c]]
      | t :: ts => (c :: t) :: ts

/-- Python `s.replace('"', '')` (line 21): remove every double-quote char. -/
def removeQuotes (s : List Char) : List Char := s.filter (fun c => c ≠ '"')

/-- Python `",".join(xs)` (line 21). -/
def joinComma : List (List Char) → List Char
  | [] => []
  | [s] => s
  | s :: ss => s ++ ',' :: joinComma ss

/-- Python `s.lower()` restricted to the characters handled by
`Char.toLower` (ASCII letters, which is what the catalog holds). -/
def lowerStr (s : List Char) : List Char := s.map Char.toLower

/-- `startsWithL p s`: the char list `p` is an initial segment of `s`. -/
def startsWithL : List Char → List Char → Bool
  | [], _ => true
  | _ :: _, [] => false
  | a :: as, b :: bs => a = b && startsWithL as bs

/-- Python `needle in hay` on strings: contiguous-substring test. -/
def isSubL (needle : List Char) : List Char → Bool
  | [] => startsWithL needle []
  | c :: t => startsWithL needle (c :: t) || isSubL needle t

/-- The sentinel personality value `"Ambivert/Any"` (lines 80, 114). -/
def ambivertAny : List Char := "Ambivert/Any".data

/-- One catalog row of `career_data.csv` as the code reads it: the
`Skills` and `Interests` cells are raw comma-joined strings. -/
structure Row where
  title : List Char
  skills : List Char
  interests : List Char
  minMath : Int
  minCode : Int
  personality : List Char
  salaryRange : List Char
  trendGrowth : List Char
deriving DecidableEq, Repr

/-- The inputs the Streamlit widgets hand to the analysis block
(lines 61-84): multiselect lists, two sliders and the personality radio. -/
structure UserInput where
  selectedSkills : List (List Char)
  selectedInterests : List (List Char)
  mathScore : Int
  codeScore : Int
  personality : List Char
deriving DecidableEq, Repr

/-- Line 21: `set(",".join(df['Skills']).replace('"','').split(','))` —
the distinct raw tokens of the concatenated, quote-free `Skills` column.
`List.dedup` realises the `set(...)` (one occurrence per distinct token;
Python's arbitrary set order is immaterial because line 22 sorts). -/
def all_skills_raw (df : List Row) : List (List Char) :=
  (splitComma (removeQuotes (joinComma (df.map (·.skills))))).dedup

/-- Line 22: `sorted([s.strip() for s in all_skills if s.strip()])` —
strip each distinct token, drop the empties, sort lexicographically. -/
def all_skills (df : List Row) : List (List Char) :=
  List.insertionSort (· ≤ ·) (((all_skills_raw df).map pyStrip).filter (· ≠ []))

/-- Lines 43-46: lower-case the resume text once, keep every vocabulary
term whose lower-cased form occurs as a substring (Python `in`), in
vocabulary order (the loop appends in iteration order). -/
def matchSkills (text : List Char) (vocab : List (List Char)) : List (List Char) :=
  let textLower := lowerStr text
  vocab.filter (fun skill => isSubL (lowerStr skill) textLower)

/-- Line 97 (and 142): `[s.strip() for s in row['Skills'].split(',')]`.
Note: no quote removal here, unlike the vocabulary on line 21. -/
def job_skills (row : Row) : List (List Char) :=
  (splitComma row.skills).map pyStrip

/-- Line 102: `[i.strip() for i in row['Interests'].split(',')]`. -/
def job_interests (row : Row) : List (List Char) :=
  (splitComma row.interests).map pyStrip

/-- Line 98: `set(selected_skills).intersection(set(job_skills))` — the
distinct job-skill tokens that the user selected. -/
def common_skills (u : UserInput) (row : Row) : List (List Char) :=
  ((job_skills row).filter (fun s => u.selectedSkills.contains s)).dedup

/-- Line 99: `(len(common_skills) / len(job_skills)) * 100`.  The
denominator is the length of the token *list* (Python `len` of the list
built on line 97), which is never zero because `split` never returns an
empty list. -/
def skill_match_pct (u : UserInput) (row : Row) : ℚ :=
  ((common_skills u row).length : ℚ) / ((job_skills row).length : ℚ) * 100

/-- Line 103: distinct common interests. -/
def common_interests (u : UserInput) (row : Row) : List (List Char) :=
  ((job_interests row).filter (fun s => u.selectedInterests.contains s)).dedup

/-- Line 104: `interest_bonus = len(common_interests) * 15`. -/
def interest_bonus (u : UserInput) (row : Row) : ℚ :=
  ((common_interests u row).length : ℚ) * 15

/-- Line 110: `if math_score < row['Min_Math']: total_score -= 10`. -/
def math_penalty (u : UserInput) (row : Row) : ℚ :=
  if u.mathScore < row.minMath then 10 else 0

/-- Line 111: `if code_score < row['Min_Code']: total_score -= 10`. -/
def code_penalty (u : UserInput) (row : Row) : ℚ :=
  if u.codeScore < row.minCode then 10 else 0

/-- Lines 114-115: `if personality != "Ambivert/Any" and personality ==
row['Personality']: total_score += 5` — the test is on the *user's*
personality string. -/
def personality_bonus (u : UserInput) (row : Row) : ℚ :=
  if u.personality ≠ ambivertAny ∧ u.personality = row.personality then 5 else 0

/-- Lines 107-115: the pre-clamp total. -/
def total_score (u : UserInput) (row : Row) : ℚ :=
  skill_match_pct u row + interest_bonus u row
    - math_penalty u row - code_penalty u row + personality_bonus u row

/-- Line 117: `final_score = max(0, min(100, total_score))`. -/
def final_score (u : UserInput) (row : Row) : ℚ :=
  max 0 (min 100 (total_score u row))

/-- Line 143: `missing = [s for s in job_skills if s not in
set(selected_skills)]` — catalog listing order, selected skills removed. -/
def missingSkills (u : UserInput) (row : Row) : List (List Char) :=
  (job_skills row).filter (fun s => ¬ u.selectedSkills.contains s)

/-- Comparison used by `df.sort_values(by='Final_Score')`: ascending
order on the score component of a scored row. -/
def scoreLe (a b : Row × ℚ) : Prop := a.2 ≤ b.2

instance : DecidableRel scoreLe := fun a b => inferInstanceAs (Decidable (a.2 ≤ b.2))

instance : IsTotal (Row × ℚ) scoreLe := ⟨fun a b => le_total a.2 b.2⟩

instance : IsTrans (Row × ℚ) scoreLe := ⟨fun _ _ _ h1 h2 => le_trans h1 h2⟩

/-- Descending order on the score component (what the displayed ranking
is claimed to satisfy). -/
def scoreGe (a b : Row × ℚ) : Prop := b.2 ≤ a.2

/-- Lines 95-120: the scoring loop visits the rows in catalog order and
line 120 aligns the resulting `Final_Score` column with them. -/
def scoredRows (df : List Row) (u : UserInput) : List (Row × ℚ) :=
  df.map (fun r => (r, final_score u r))

/-- Line 121: `df.sort_values(by='Final_Score', ascending=False)`.
pandas computes an *ascending* argsort of the column and, because
`ascending=False`, reverses that indexer (`pandas.core.sorting.nargsort`);
for the short frames this app sorts, numpy's default `kind='quicksort'`
runs its insertion-sort branch, which is stable in ascending order.  The
embedding is therefore the reverse of a stable ascending sort — rows with
equal scores come out in *reverse* catalog order. -/
def sortValuesDesc (xs : List (Row × ℚ)) : List (Row × ℚ) :=
  (List.insertionSort scoreLe xs).reverse

/-- Line 121: `top_jobs = df.sort_values(by='Final_Score',
ascending=False).head(3)`. -/
def top_jobs (df : List Row) (u : UserInput) : List (Row × ℚ) :=
  (sortValuesDesc (scoredRows df u)).take 3

/-- The caller-visible error signal of lines 90-91 (`st.error("Please
select at least one skill to proceed!")`): analysis is refused and no
result list is produced. -/
inductive AnalyzeError where
  | emptySelection
deriving DecidableEq, Repr

/-- Lines 89-121 as a function from catalog and user input to either the
error signal or the ranked top-3 result list. -/
def analyze (df : List Row) (u : UserInput) :
    Except AnalyzeError (List (Row × ℚ)) :=
  if u.selectedSkills = [] then .error .emptySelection
  else .ok (top_jobs df u)

/-- The pandas dataframe holding the catalog: its rows plus the optional
`Final_Score` column (absent until someone assigns it). -/
structure DataFrame where
  rows : List Row
  final_score_col : Option (List ℚ)
deriving DecidableEq, Repr

/-- Lines 13-18: `load_data` parses the CSV into a dataframe that has no
`Final_Score` column. -/
def load_data (rows : List Row) : DataFrame := ⟨rows, none⟩

/-- Lines 89-121 with the dataframe state made explicit: on a non-empty
selection, line 120 (`df['Final_Score'] = final_results`) writes the
score column onto the catalog dataframe before line 121 sorts it. -/
def analyze_state (df : DataFrame) (u : UserInput) :
    DataFrame × Except AnalyzeError (List (Row × ℚ)) :=
  if u.selectedSkills = [] then (df, .error .emptySelection)
  else (⟨df.rows, some (df.rows.map (final_score u ·))⟩,
        .ok (top_jobs df.rows u))

/-! ## Spec-side definitions

The following definitions transcribe the *spec's* wording (section 4.3
of `spec.md` and claim C1), to be compared with the code-derived
definitions above.  The spec's `job.requiredSkills` is a set, so its
cardinality counts distinct tokens. -/

/-- Modelled from the spec: `job.requiredSkills` as a set — the distinct
parsed skill tokens of the row. -/
def requiredSkills (row : Row) : List (List Char) := (job_skills row).dedup

/-- Modelled from the spec (claim C1): `skillMatchPercent =
|selectedSkills ∩ requiredSkills| / |requiredSkills| * 100`. -/
def spec_skill_pct (u : UserInput) (row : Row) : ℚ :=
  (((requiredSkills row).filter
      (fun s => u.selectedSkills.contains s)).length : ℚ)
    / ((requiredSkills row).length : ℚ) * 100

/-- Modelled from the spec (claim C1): `clamp(skill% + 15*|interest
overlap| - 10*(mathScore < minMath) - 10*(codeScore < minCode) +
5*(preferredPersonality ≠ Ambivert/Any and user.personality =
preferredPersonality), 0, 100)`.  Note the personality condition is
stated on the *job's* preference, where the code tests the user's. -/
def spec_final_score (u : UserInput) (row : Row) : ℚ :=
  max 0 (min 100 (spec_skill_pct u row
    + 15 * (((job_interests row).dedup.filter
        (fun s => u.selectedInterests.contains s)).length : ℚ)
    - (if u.mathScore < row.minMath then 10 else 0)
    - (if u.codeScore < row.minCode then 10 else 0)
    + (if row.personality ≠ ambivertAny ∧ u.personality = row.personality
       then 5 else 0)))

/-- A token has no whitespace at either end (what "trimmed" means
observably: first and last characters, if any, are not whitespace). -/
def noLeadSpace (t : List Char) : Bool :=
  match t.head? with
  | none => true
  | some c => !c.isWhitespace

/-- Trimmed at both ends. -/
def strippedB (t : List Char) : Bool :=
  noLeadSpace t && noLeadSpace t.reverse

/-! ## Concrete inputs used by witnesses and counterexamples -/

/-- A catalog row resembling the sample row of spec section 8. -/
def rowA : Row where
  title := "Data Analyst".data
  skills := "Python, SQL".data
  interests := "Data, AI".data
  minMath := 50
  minCode := 50
  personality := "Introvert".data
  salaryRange := "4-8 LPA".data
  trendGrowth := "High".data

/-- A second row identical to `rowA` except for its title: it scores
identically on every user input. -/
def rowB : Row where
  title := "BI Analyst".data
  skills := "Python, SQL".data
  interests := "Data, AI".data
  minMath := 50
  minCode := 50
  personality := "Introvert".data
  salaryRange := "4-8 LPA".data
  trendGrowth := "High".data

/-- A row whose `Skills` cell is the empty string: its parsed token list
is `[""]`, so its set of (non-empty) required skills is empty. -/
def rowEmptySkills : Row where
  title := "Generalist".data
  skills := "".data
  interests := "People".data
  minMath := 0
  minCode := 0
  personality := "Extrovert".data
  salaryRange := "3-5 LPA".data
  trendGrowth := "Stable".data

/-- A row whose single skill token is wrapped in double quotes in the
CSV cell. -/
def rowQuoted : Row where
  title := "Pythonista".data
  skills := "\"Python\"".data
  interests := "AI".data
  minMath := 0
  minCode := 0
  personality := "Introvert".data
  salaryRange := "5-9 LPA".data
  trendGrowth := "High".data

/-- The sample user of spec section 8: skills {Python}, interests
{Data}, math 60, code 60, Introvert. -/
def userA : UserInput where
  selectedSkills := ["Python".data]
  selectedInterests := ["Data".data]
  mathScore := 60
  codeScore := 60
  personality := "Introvert".data

/-- A user who selected no skills. -/
def userNone : UserInput where
  selectedSkills := []
  selectedInterests := ["AI".data]
  mathScore := 75
  codeScore := 70
  personality := "Ambivert/Any".data

/-! ## Helper lemmas -/

/-- `dedup` commutes with `filter`: both sides keep the first occurrence
of each distinct element satisfying the predicate. -/
theorem dedup_filter {α : Type u} [DecidableEq α] (p : α → Bool) :
    ∀ l : List α, (l.filter p).dedup = l.dedup.filter p := by
  intro l
  induction l with
  | nil => rfl
  | cons a l ih =>
    by_cases hp : p a
    · by_cases hm : a ∈ l
      · rw [List.filter_cons_of_pos hp, List.dedup_cons_of_mem hm,
          List.dedup_cons_of_mem (List.mem_filter.mpr ⟨hm, hp⟩), ih]
      · have hmf : a ∉ l.filter p := fun h => hm (List.mem_filter.mp h).1
        rw [List.filter_cons_of_pos hp, List.dedup_cons_of_not_mem hmf,
          List.dedup_cons_of_not_mem hm, List.filter_cons_of_pos hp, ih]
    · have hp' : p a = false := by simpa using hp
      by_cases hm : a ∈ l
      · rw [List.filter_cons_of_neg (by simp [hp']), List.dedup_cons_of_mem hm, ih]
      · rw [List.filter_cons_of_neg (by simp [hp']), List.dedup_cons_of_not_mem hm,
          List.filter_cons_of_neg (by simp [hp']), ih]

/-- Python `split` never returns an empty list: `"".split(',') == ['']`. -/
theorem splitComma_ne_nil : ∀ s : List Char, splitComma s ≠ [] := by
  intro s
  cases s with
  | nil => simp [splitComma]
  | cons a as =>
    simp only [splitComma]
    by_cases ha : a = ','
    · rw [if_pos ha]; simp
    · rw [if_neg ha]
      cases hsp : splitComma as <;> simp

/-- The sample score of spec section 8: skill 50% + interest 15 + no
penalties + personality 5 = 70. -/
theorem final_score_userA_rowA : final_score userA rowA = 70 := by
  have h1 : (common_skills userA rowA).length = 1 := by decide
  have h2 : (job_skills rowA).length = 2 := by decide
  have h3 : (common_interests userA rowA).length = 1 := by decide
  have hm : ¬ (userA.mathScore < rowA.minMath) := by decide
  have hc : ¬ (userA.codeScore < rowA.minCode) := by decide
  have hp : userA.personality ≠ ambivertAny ∧
      userA.personality = rowA.personality := by decide
  unfold final_score total_score skill_match_pct interest_bonus
    math_penalty code_penalty personality_bonus
  rw [h1, h2, h3, if_neg hm, if_neg hc, if_pos hp, max_def, min_def]
  norm_num

/-- `sortValuesDesc` is a permutation of its input. -/
theorem sortValuesDesc_perm (xs : List (Row × ℚ)) :
    (sortValuesDesc xs).Perm xs :=
  (List.reverse_perm _).trans (List.perm_insertionSort _ _)

/-- `sortValuesDesc` output is sorted descending by score. -/
theorem sortValuesDesc_sorted (xs : List (Row × ℚ)) :
    (sortValuesDesc xs).Sorted scoreGe := by
  unfold sortValuesDesc
  rw [List.Sorted, List.pairwise_reverse]
  exact List.sorted_insertionSort scoreLe xs

/-- The head of `dropWhile p` never satisfies `p`. -/
theorem head?_dropWhile_false (p : Char → Bool) (l : List Char) :
    ∀ c, (l.dropWhile p).head? = some c → p c = false := by
  intro c h
  have := List.head?_dropWhile_not p l
  rw [h] at this
  exact this

/-- Dropping a prefix cannot change a non-empty result's last element. -/
theorem getLast?_dropWhile (p : Char → Bool) :
    ∀ l : List Char, l.dropWhile p = [] ∨ (l.dropWhile p).getLast? = l.getLast? := by
  intro l
  induction l with
  | nil => left; rfl
  | cons a t ih =>
    rw [List.dropWhile_cons]
    by_cases hp : p a
    · rw [if_pos hp]
      by_cases hnil : t.dropWhile p = []
      · left; exact hnil
      · right
        rcases ih with h | h
        · exact absurd h hnil
        · rw [h]
          cases t with
          | nil => simp [List.dropWhile_nil] at hnil
          | cons b u => rw [List.getLast?_cons_cons]
    · right; rw [if_neg hp]

/-- Every output of `pyStrip` is trimmed at both ends. -/
theorem pyStrip_strippedB (s : List Char) : strippedB (pyStrip s) = true := by
  unfold pyStrip strippedB noLeadSpace
  rw [List.reverse_reverse]
  set A := s.dropWhile Char.isWhitespace with hA
  set B := A.reverse.dropWhile Char.isWhitespace with hB
  rw [Bool.and_eq_true]
  constructor
  · -- the first char of `B.reverse` is the last of `B`, which survives
    -- from `A.reverse`, whose last char is the head of `A`.
    cases hh : (B.reverse).head? with
    | none => rfl
    | some c =>
      rw [List.head?_reverse] at hh
      rcases getLast?_dropWhile Char.isWhitespace A.reverse with h | h
      · rw [← hB] at h
        rw [h] at hh
        simp at hh
      · rw [← hB] at h
        rw [h, List.getLast?_reverse] at hh
        have : A.head? = some c := hh
        have := head?_dropWhile_false Char.isWhitespace s c
          (by rw [← hA] at *; exact this)
        simp [this]
  · cases hh : B.head? with
    | none => rfl
    | some c =>
      have := head?_dropWhile_false Char.isWhitespace A.reverse c
        (by rw [← hB] at *; exact hh)
      simp [this]

/-- Characters of a `splitComma` token all occur in the split string. -/
theorem splitComma_subset :
    ∀ (s : List Char), ∀ t ∈ splitComma s, ∀ c ∈ t, c ∈ s := by
  intro s
  induction s with
  | nil =>
    intro t ht c hc
    simp only [splitComma, List.mem_singleton] at ht
    subst ht
    simp at hc
  | cons a as ih =>
    intro t ht c hc
    simp only [splitComma] at ht
    by_cases ha : a = ','
    · rw [if_pos ha] at ht
      rcases List.mem_cons.mp ht with h | h
      · subst h; simp at hc
      · exact List.mem_cons_of_mem a (ih t h c hc)
    · rw [if_neg ha] at ht
      cases hsp : splitComma as with
      | nil =>
        rw [hsp] at ht
        simp at ht
        subst ht
        rcases List.mem_cons.mp hc with h2 | h2
        · subst h2; exact List.mem_cons_self _ _
        · simp at h2
      | cons t' ts =>
        rw [hsp] at ht
        rcases List.mem_cons.mp ht with h | h
        · subst h
          rcases List.mem_cons.mp hc with h2 | h2
          · subst h2; exact List.mem_cons_self _ _
          · exact List.mem_cons_of_mem a
              (ih t' (by rw [hsp]; exact List.mem_cons_self t' ts) c h2)
        · exact List.mem_cons_of_mem a
            (ih t (by rw [hsp]; exact List.mem_cons_of_mem t' h) c hc)

/-- `pyStrip` only removes characters. -/
theorem pyStrip_subset (s : List Char) : ∀ c ∈ pyStrip s, c ∈ s := by
  intro c hc
  unfold pyStrip at hc
  rw [List.mem_reverse] at hc
  have h1 := (List.dropWhile_sublist _).subset hc
  rw [List.mem_reverse] at h1
  exact (List.dropWhile_sublist _).subset h1

/-- `removeQuotes` leaves no double-quote character behind. -/
theorem removeQuotes_no_quote (s : List Char) : ('"' : Char) ∉ removeQuotes s := by
  intro h
  rw [removeQuotes, List.mem_filter] at h
  simp at h

/-! ## Claim theorems -/

/-- Claim C1: for every job row and user input such that the job's
parsed skill-token list has no duplicates (the spec's `requiredSkills`
is a set), the code's final score equals the spec formula
`clamp(skill% + 15*|interest overlap| - penalties + personality bonus,
0, 100)` with `skill% = |selected ∩ required| / |required| * 100`, and
the returned score always lies in `[0, 100]`. -/
theorem final_score_formula (u : UserInput) (row : Row)
    (h : (job_skills row).Nodup) :
    final_score u row = spec_final_score u row ∧
    0 ≤ final_score u row ∧ final_score u row ≤ 100 := by
  refine ⟨?_, le_max_left 0 _, max_le (by norm_num) (min_le_left _ _)⟩
  have hnum : common_skills u row =
      (requiredSkills row).filter (fun s => u.selectedSkills.contains s) := by
    unfold common_skills requiredSkills
    exact dedup_filter _ _
  have hden : (requiredSkills row).length = (job_skills row).length := by
    unfold requiredSkills
    rw [List.dedup_eq_self.mpr h]
  have hpct : skill_match_pct u row = spec_skill_pct u row := by
    unfold skill_match_pct spec_skill_pct
    rw [hnum, hden]
  have hint : interest_bonus u row =
      15 * (((job_interests row).dedup.filter
        (fun s => u.selectedInterests.contains s)).length : ℚ) := by
    unfold interest_bonus common_interests
    rw [dedup_filter]
    ring
  have hpers : personality_bonus u row =
      (if row.personality ≠ ambivertAny ∧ u.personality = row.personality
        then (5 : ℚ) else 0) := by
    unfold personality_bonus
    refine if_congr ?_ rfl rfl
    constructor
    · rintro ⟨hne, heq⟩
      exact ⟨fun hr => hne (heq.trans hr), heq⟩
    · rintro ⟨hne, heq⟩
      exact ⟨fun hu => hne (heq.symm.trans hu), heq⟩
  unfold final_score spec_final_score total_score math_penalty code_penalty
  rw [hpct, hint, hpers]

/-- Claim C1 witness: the spec section 8 example, evaluated. -/
theorem final_score_formula_witness :
    final_score userA rowA = spec_final_score userA rowA ∧
      0 ≤ final_score userA rowA ∧ final_score userA rowA ≤ 100 :=
  final_score_formula userA rowA (by decide)

/-- Claim C3: line 120 (`df['Final_Score'] = final_results`) writes the
score column onto the catalog dataframe — after one analyze call the
dataframe state differs from what `load_data` produced, so the catalog
is NOT left byte-for-byte as loaded. -/
theorem catalog_mutated_by_analyze :
    (analyze_state (load_data [rowA]) userA).1 ≠ load_data [rowA] ∧
    (analyze_state (load_data [rowA]) userA).1.final_score_col = some [70] := by
  have hcol : (analyze_state (load_data [rowA]) userA).1.final_score_col
      = some [70] := by
    unfold analyze_state
    rw [if_neg (show ¬ (userA.selectedSkills = []) by decide)]
    simp [load_data, final_score_userA_rowA]
  refine ⟨?_, hcol⟩
  intro hcontra
  rw [hcontra] at hcol
  simp [load_data] at hcol

/-- Claim C4: an empty skill selection is rejected with the
caller-visible error signal before any scoring: analyze returns the
error, never a result list, and the dataframe state is untouched. -/
theorem analyze_rejects_empty_selection (df : List Row) (dfState : DataFrame)
    (u : UserInput) (h : u.selectedSkills = []) :
    analyze df u = .error .emptySelection ∧
    (∀ r, analyze df u ≠ .ok r) ∧
    (analyze_state dfState u).1 = dfState ∧
    (analyze_state dfState u).2 = .error .emptySelection := by
  refine ⟨by simp [analyze, h], fun r => by simp [analyze, h], ?_, ?_⟩
  · simp [analyze_state, h]
  · simp [analyze_state, h]

/-- Claim C4 witness: the skill-less user is rejected on a concrete
catalog. -/
theorem analyze_rejects_empty_selection_witness :
    analyze [rowA] userNone = .error .emptySelection :=
  (analyze_rejects_empty_selection [rowA] (load_data [rowA]) userNone rfl).1

/-- Claim C5: a job whose `Skills` cell holds no non-empty token (every
parsed token strips to the empty string, as for an empty cell, which
parses to `['']`) yields a skill match of exactly 0% for every user
whose selection avoids the empty token (the UI only offers vocabulary
terms, which are non-empty); and the denominator of the percentage is
never zero, so the division cannot raise. -/
theorem empty_required_skills_pct (u : UserInput) (row : Row)
    (h1 : ∀ t ∈ job_skills row, t = ([] : List Char))
    (h2 : ¬ u.selectedSkills.contains ([] : List Char)) :
    skill_match_pct u row = 0 ∧ (job_skills row).length ≠ 0 := by
  constructor
  · have hf : (job_skills row).filter
        (fun s => u.selectedSkills.contains s) = [] := by
      rw [List.filter_eq_nil_iff]
      intro a ha
      rw [h1 a ha]
      simpa using h2
    have hcs : common_skills u row = [] := by
      unfold common_skills
      rw [hf]
      rfl
    unfold skill_match_pct
    rw [hcs]
    simp
  · unfold job_skills
    rw [List.length_map]
    intro h0
    exact splitComma_ne_nil _ (List.length_eq_zero.mp h0)

/-- Claim C5 witness: the empty-skills row scores 0% against the sample
user. -/
theorem empty_required_skills_pct_witness :
    skill_match_pct userA rowEmptySkills = 0 ∧
      (job_skills rowEmptySkills).length ≠ 0 :=
  empty_required_skills_pct userA rowEmptySkills (by decide) (by decide)

/-- Claim C6: the 5-point personality bonus is granted exactly when the
job's preferred personality is not Ambivert/Any and the user's equals
it; an Ambivert/Any user never receives it. -/
theorem personality_bonus_spec (u : UserInput) (row : Row) :
    (personality_bonus u row = 5 ↔
      (row.personality ≠ ambivertAny ∧ u.personality = row.personality)) ∧
    (u.personality = ambivertAny → personality_bonus u row = 0) := by
  constructor
  · unfold personality_bonus
    by_cases hcond : u.personality ≠ ambivertAny ∧ u.personality = row.personality
    · rw [if_pos hcond]
      exact ⟨fun _ => ⟨hcond.2 ▸ hcond.1, hcond.2⟩, fun _ => rfl⟩
    · rw [if_neg hcond]
      constructor
      · intro h5; exact absurd h5 (by norm_num)
      · rintro ⟨hne, heq⟩; exact absurd ⟨heq ▸ hne, heq⟩ hcond
  · intro hAmb
    unfold personality_bonus
    rw [if_neg]
    rintro ⟨hne, _⟩; exact hne hAmb

/-- Claim C6 witness: the Introvert sample user gets the bonus for the
Introvert-preferring job; the Ambivert/Any user gets none. -/
theorem personality_bonus_spec_witness :
    personality_bonus userA rowA = 5 ∧ personality_bonus userNone rowA = 0 :=
  ⟨(personality_bonus_spec userA rowA).1.mpr ⟨by decide, by decide⟩,
   (personality_bonus_spec userNone rowA).2 (by decide)⟩

/-- Claim C7: matched and missing skills partition the job's parsed
skill tokens (their union is the required set, they are disjoint), and
the missing list is the job's token list in original order filtered to
exclude the user's selection. -/
theorem skills_partition (u : UserInput) (row : Row) :
    (∀ s, (s ∈ common_skills u row ∨ s ∈ missingSkills u row) ↔
        s ∈ job_skills row) ∧
    (∀ s, ¬ (s ∈ common_skills u row ∧ s ∈ missingSkills u row)) ∧
    List.Sublist (missingSkills u row) (job_skills row) ∧
    (∀ s, s ∈ missingSkills u row ↔
        s ∈ job_skills row ∧ ¬ u.selectedSkills.contains s) := by
  have hc : ∀ s, s ∈ common_skills u row ↔
      s ∈ job_skills row ∧ u.selectedSkills.contains s := by
    intro s; simp [common_skills, List.mem_dedup, List.mem_filter]
  have hm : ∀ s, s ∈ missingSkills u row ↔
      s ∈ job_skills row ∧ ¬ u.selectedSkills.contains s := by
    intro s; simp [missingSkills, List.mem_filter]
  refine ⟨?_, ?_, List.filter_sublist _, hm⟩
  · intro s
    rw [hc s, hm s]
    by_cases h : u.selectedSkills.contains s <;> tauto
  · intro s
    rw [hc s, hm s]
    tauto

/-- Claim C7 witness: `SQL` is missing for the sample user because it is
required and not selected. -/
theorem skills_partition_witness :
    "SQL".data ∈ missingSkills userA rowA ↔
      "SQL".data ∈ job_skills rowA ∧
        ¬ userA.selectedSkills.contains "SQL".data :=
  (skills_partition userA rowA).2.2.2 "SQL".data

/-- Claim C8 (amended): every vocabulary token is non-empty, trimmed and
quote-free; the tokens used during scoring and display — the skill
tokens of lines 97/142 and the interest tokens of line 102 — are trimmed
but quote characters are NOT removed from them (see
`scoring_token_keeps_quotes`). -/
theorem token_hygiene (df : List Row) (row : Row) :
    (∀ t ∈ all_skills df, t ≠ [] ∧ strippedB t = true ∧ ('"' : Char) ∉ t) ∧
    (∀ t ∈ job_skills row, strippedB t = true) ∧
    (∀ t ∈ job_interests row, strippedB t = true) := by
  refine ⟨?_, ?_, ?_⟩
  · intro t ht
    unfold all_skills at ht
    rw [(List.perm_insertionSort _ _).mem_iff, List.mem_filter] at ht
    obtain ⟨ht1, ht2⟩ := ht
    rw [List.mem_map] at ht1
    obtain ⟨s, hs, rfl⟩ := ht1
    refine ⟨by simpa using ht2, pyStrip_strippedB s, ?_⟩
    intro hq
    have hq2 : ('"' : Char) ∈ s := pyStrip_subset s _ hq
    unfold all_skills_raw at hs
    have hs2 := List.mem_dedup.mp hs
    exact removeQuotes_no_quote _ (splitComma_subset _ s hs2 '"' hq2)
  · intro t ht
    unfold job_skills at ht
    rw [List.mem_map] at ht
    obtain ⟨s, _, rfl⟩ := ht
    exact pyStrip_strippedB s
  · intro t ht
    unfold job_interests at ht
    rw [List.mem_map] at ht
    obtain ⟨s, _, rfl⟩ := ht
    exact pyStrip_strippedB s

/-- Claim C8 witness: a concrete scoring skill token and a concrete
scoring interest token are both trimmed. -/
theorem token_hygiene_witness :
    strippedB ("Python".data) = true ∧ strippedB ("Data".data) = true :=
  ⟨(token_hygiene [rowA] rowA).2.1 "Python".data (by decide),
   (token_hygiene [rowA] rowA).2.2 "Data".data (by decide)⟩

/-- Claim C8 counterexample: a quoted CSV cell keeps its quote
characters in the scoring token list, while the vocabulary built from
the very same cell strips them. -/
theorem scoring_token_keeps_quotes :
    "\"Python\"".data ∈ job_skills rowQuoted ∧
    ('"' : Char) ∈ "\"Python\"".data ∧
    all_skills [rowQuoted] = ["Python".data] := by
  refine ⟨by decide, by decide, by decide⟩

/-- Claim C9: `matchSkills` returns exactly the vocabulary terms whose
lower-cased form occurs as a substring of the lower-cased text, as a
sublist of the vocabulary (hence in vocabulary order); the text is
lower-cased once, outside the per-term loop. -/
theorem matchSkills_spec (text : List Char) (vocab : List (List Char)) :
    List.Sublist (matchSkills text vocab) vocab ∧
    (∀ s, s ∈ matchSkills text vocab ↔
      s ∈ vocab ∧ isSubL (lowerStr s) (lowerStr text) = true) := by
  constructor
  · exact List.filter_sublist _
  · intro s; simp [matchSkills, List.mem_filter]

/-- Claim C9 witness: the documented false positive — the term `Go`
matches inside the unrelated word `Google`. -/
theorem matchSkills_spec_witness :
    "Go".data ∈ matchSkills "I use Google daily".data ["Go".data] :=
  ((matchSkills_spec "I use Google daily".data ["Go".data]).2 "Go".data).mpr
    ⟨by decide, by decide⟩

/-- Claim C10: on a catalog with fewer than three jobs (and a non-empty
selection), analyze succeeds and the ranking returns every job, still
sorted descending by score. -/
theorem rank_small_catalog (df : List Row) (u : UserInput)
    (h1 : u.selectedSkills ≠ []) (h2 : df.length < 3) :
    analyze df u = .ok (top_jobs df u) ∧
    (top_jobs df u).Perm (scoredRows df u) ∧
    (top_jobs df u).length = df.length ∧
    (top_jobs df u).Sorted scoreGe := by
  have hlen : (sortValuesDesc (scoredRows df u)).length = df.length := by
    rw [(sortValuesDesc_perm _).length_eq]
    unfold scoredRows
    rw [List.length_map]
  have htake : top_jobs df u = sortValuesDesc (scoredRows df u) := by
    unfold top_jobs
    apply List.take_of_length_le
    rw [hlen]
    omega
  refine ⟨by simp [analyze, h1], ?_, ?_, ?_⟩
  · rw [htake]; exact sortValuesDesc_perm _
  · rw [htake, hlen]
  · rw [htake]; exact sortValuesDesc_sorted _

/-- Claim C10 witness: a two-row catalog returns both rows. -/
theorem rank_small_catalog_witness :
    (top_jobs [rowA, rowB] userA).length = ([rowA, rowB] : List Row).length :=
  (rank_small_catalog [rowA, rowB] userA (by decide) (by decide)).2.2.1

end CareerCompass
